import Mathlib

/-!
Shallow embedding of the raster geospatial processing core of the
agriculture-remote-sense repository, together with proofs of the spec's
claims about it.

Modelling conventions:
* Pixel samples are modelled by `Val`: either a missing value (`Val.nan`,
  modelling IEEE NaN) or a finite numeric value (`Val.num q`, a rational).
  The claims under study do not depend on floating-point rounding, only on
  the exact-zero tests, the NaN propagation rules and the branch structure
  of the numpy code, all of which the rational model reproduces.
* numpy elementwise arithmetic propagates NaN through `+`, `-`, `*`, `/`;
  the elementwise comparison `x != 0` is True at a NaN entry.  `np.where`
  selects per pixel between the two branch arrays.
* A single-band raster is a flat `List Val` of its pixels; a multi-band
  raster is a `List (List Val)` of its bands.
-/

namespace AgriRS

/-- A pixel sample: IEEE NaN ("missing") or a finite number (modelled
exactly by a rational). -/
inductive Val where
  | nan : Val
  | num : ℚ → Val
deriving DecidableEq, Repr

namespace Val

/-- numpy elementwise addition: NaN-propagating. -/
def add : Val → Val → Val
  | num a, num b => num (a + b)
  | _, _ => nan

/-- numpy elementwise subtraction: NaN-propagating. -/
def sub : Val → Val → Val
  | num a, num b => num (a - b)
  | _, _ => nan

/-- numpy elementwise multiplication: NaN-propagating. -/
def mul : Val → Val → Val
  | num a, num b => num (a * b)
  | _, _ => nan

/-- numpy elementwise division.  NaN operands propagate.  Division of a
finite value by an exact zero never occurs under the guards used in this
code base (every division sits under an `x != 0` test), so the model maps
that unreachable case to NaN. -/
def div : Val → Val → Val
  | num a, num b => if b = 0 then nan else num (a / b)
  | _, _ => nan

/-- The numpy elementwise test `x != 0`.  NaN compares unequal to zero,
so a NaN entry yields `true`. -/
def neZero : Val → Bool
  | nan => true
  | num a => decide (a ≠ 0)

/-- Whether a sample is a finite number (not missing). -/
def isNum : Val → Bool
  | nan => false
  | num _ => true

/-- The finite content of a sample, if any. -/
def numPart : Val → Option ℚ
  | nan => none
  | num q => some q

end Val

/-!
## Vegetation index calculator

Embedding of `backend/app/services/vegetation_index_calculator.py`
(class `VegetationIndexCalculator`).  Each method is
`np.where(denominator != 0, numerator / denominator, 0)` over equal-shaped
arrays; the embedding applies the same per-pixel computation with
`List.zipWith`.
-/

/-- Elementwise map over three equal-length lists (numpy broadcasting of a
ternary elementwise expression). -/
def zipWith3 (f : α → β → γ → δ) : List α → List β → List γ → List δ
  | a :: as_, b :: bs, c :: cs => f a b c :: zipWith3 f as_ bs cs
  | _, _, _ => []

namespace VegetationIndexCalculator

/-- Per-pixel body of NDVI: `np.where(denominator != 0, (nir - red) / denominator, 0)`
with `denominator = nir + red`. -/
def ndviPx (n r : Val) : Val :=
  let denominator := Val.add n r
  if denominator.neZero then Val.div (Val.sub n r) denominator else Val.num 0

/-- NDVI = (NIR - Red) / (NIR + Red), elementwise over the two bands. -/
def calculate_ndvi (nir red : List Val) : List Val :=
  List.zipWith ndviPx nir red

/-- Per-pixel body of SAVI: `np.where(denominator != 0, (1 + L) * (nir - red) / denominator, 0)`
with `denominator = nir + red + L`. -/
def saviPx (L : ℚ) (n r : Val) : Val :=
  let denominator := Val.add (Val.add n r) (Val.num L)
  if denominator.neZero then
    Val.div (Val.mul (Val.num (1 + L)) (Val.sub n r)) denominator
  else Val.num 0

/-- SAVI = (1 + L) * (NIR - Red) / (NIR + Red + L), elementwise;
`L` defaults to 0.5 in the source. -/
def calculate_savi (nir red : List Val) (L : ℚ) : List Val :=
  List.zipWith (saviPx L) nir red

/-- Per-pixel body of EVI: `np.where(denominator != 0, 2.5 * (nir - red) / denominator, 0)`
with `denominator = nir + 6 * red - 7.5 * blue + 1`. -/
def eviPx (n r b : Val) : Val :=
  let denominator :=
    Val.add (Val.sub (Val.add n (Val.mul (Val.num 6) r)) (Val.mul (Val.num (15/2)) b))
      (Val.num 1)
  if denominator.neZero then
    Val.div (Val.mul (Val.num (5/2)) (Val.sub n r)) denominator
  else Val.num 0

/-- EVI = 2.5 * (NIR - Red) / (NIR + 6*Red - 7.5*Blue + 1), elementwise. -/
def calculate_evi (nir red blue : List Val) : List Val :=
  zipWith3 eviPx nir red blue

/-- Per-pixel body of VGI: `np.where(red != 0, green / red, 0)`. -/
def vgiPx (g r : Val) : Val :=
  if r.neZero then Val.div g r else Val.num 0

/-- VGI = Green / Red, elementwise over the two bands. -/
def calculate_vgi (green red : List Val) : List Val :=
  List.zipWith vgiPx green red

end VegetationIndexCalculator

/-!
## Raster processor: cloud mask

Embedding of `RasterProcessor.apply_cloud_mask` in
`backend/app/services/raster_processor.py`.  `data` is a multi-band raster
(list of bands, each a flat pixel list) and `qa` the spatially aligned
quality band of integer codes.  The numpy `astype(np.float32)` conversion
that makes NaN representable is the identity on the `Val` model.
-/

namespace RasterProcessor

/-- The Sentinel-2 SCL codes the source treats as occluded
(`bad_classes = {0, 1, 3, 8, 9, 10}`). -/
def sentinel2BadClasses : List ℤ := [0, 1, 3, 8, 9, 10]

/-- Landsat-8 QA_PIXEL decoding: the value is cast to uint16 and a pixel is
occluded when bit 3 (cloud), bit 4 (cloud shadow) or bit 1 (dilated cloud)
is set. -/
def landsatOccluded (v : ℤ) : Bool :=
  let q : Nat := (v % 65536).toNat
  (q &&& 8 != 0) || (q &&& 16 != 0) || (q &&& 2 != 0)

/-- Model of `apply_cloud_mask(data, qa_band, satellite)`: reject unsupported
satellites, build the per-pixel occlusion mask from the quality band, and
null (set to NaN) the masked pixels of every band. -/
def apply_cloud_mask (data : List (List Val)) (qa : List ℤ) (satellite : String) :
    Except String (List (List Val)) :=
  if satellite ≠ "sentinel-2" ∧ satellite ≠ "landsat-8" then
    Except.error ("Cloud masking not supported for satellite: " ++ satellite)
  else
    let cloud_mask : List Bool :=
      if satellite = "sentinel-2" then
        qa.map (fun v => decide (v ∈ sentinel2BadClasses))
      else
        qa.map landsatOccluded
    Except.ok (data.map (fun band =>
      List.zipWith (fun m px => if m then Val.nan else px) cloud_mask band))

/-!
## Raster processor: COG encoder

Embedding of the overview-level computation and the written-file shape of
`RasterProcessor.to_cog`.  The Python loop is

    level = 2
    while max_dim / level > tile_size: append level; level *= 2

`max_dim / level > tile_size` is Python float division of naturals; for the
raster sizes at hand it is the exact comparison `tile_size * level < max_dim`,
which the model uses.  The recursion is given `max_dim` as explicit fuel,
which (level doubling each step) always suffices.
-/

def overviewLevelsAux (maxDim tileSize : Nat) : Nat → Nat → List Nat
  | 0, _ => []
  | fuel + 1, level =>
    if tileSize * level < maxDim then
      level :: overviewLevelsAux maxDim tileSize fuel (level * 2)
    else []

/-- The automatically computed overview pyramid reduction factors. -/
def computeOverviewLevels (width height tileSize : Nat) : List Nat :=
  overviewLevelsAux (max width height) tileSize (max width height) 2

/-- The validated artifact written by `to_cog`: tiled with the requested
block size and compression, carrying the built overview levels. -/
structure CogFile where
  tiled : Bool
  blockxsize : Nat
  blockysize : Nat
  compress : String
  overviews : List Nat
  pixels : List (List Val)
deriving DecidableEq, Repr

/-- Model of `to_cog(data, output_path, compress, tile_size, overview_levels, nodata)`:
writes a tiled file with the requested block size; overview levels are the
explicit ones when supplied, else the automatically computed pyramid
(`build_overviews` is a no-op on an empty level list, so the file carries
exactly `levels`). -/
def to_cog (pixels : List (List Val)) (width height : Nat) (compress : String)
    (tile_size : Nat) (overview_levels : Option (List Nat)) : CogFile :=
  let levels :=
    match overview_levels with
    | some ls => ls
    | none => computeOverviewLevels width height tile_size
  { tiled := true, blockxsize := tile_size, blockysize := tile_size,
    compress := compress, overviews := levels, pixels := pixels }

/-!
## Raster processor: AOI clipping

Embedding of `RasterProcessor.clip_to_aoi`.  Geometries are modelled as
finite unions of closed axis-aligned rational boxes; the raster footprint
(`data.rio.bounds()`) is genuinely such a box in the source.  The pyproj
reprojection applied when the raster reference system differs from the
AOI's EPSG:4326 is modelled by a per-axis affine map.  As in shapely,
closed boxes intersect when they overlap or touch.  The success path masks
pixels whose cell does not meet the clip geometry (`all_touched=true`), or
whose cell center is outside it (`all_touched=false`); the `drop=True`
cropping of fully masked border rows/columns is not modelled, as no claim
depends on it.
-/

structure BBox where
  minx : ℚ
  miny : ℚ
  maxx : ℚ
  maxy : ℚ
deriving DecidableEq, Repr

/-- Intersection of two closed boxes, `none` when it is empty. -/
def boxIntersection (a b : BBox) : Option BBox :=
  if a.maxx < b.minx ∨ b.maxx < a.minx ∨ a.maxy < b.miny ∨ b.maxy < a.miny then none
  else some ⟨max a.minx b.minx, max a.miny b.miny, min a.maxx b.maxx, min a.maxy b.maxy⟩

/-- Whether a point lies in a closed box. -/
def pointInBox (x y : ℚ) (b : BBox) : Bool :=
  decide (b.minx ≤ x ∧ x ≤ b.maxx ∧ b.miny ≤ y ∧ y ≤ b.maxy)

/-- A per-axis affine coordinate transformation (model of the pyproj
transformer between coordinate reference systems). -/
structure AffineMap2D where
  sx : ℚ
  tx : ℚ
  sy : ℚ
  ty : ℚ
deriving DecidableEq, Repr

/-- Image of a box under a per-axis affine map. -/
def applyAffineBox (t : AffineMap2D) (b : BBox) : BBox :=
  let x1 := t.sx * b.minx + t.tx
  let x2 := t.sx * b.maxx + t.tx
  let y1 := t.sy * b.miny + t.ty
  let y2 := t.sy * b.maxy + t.ty
  ⟨min x1 x2, min y1 y2, max x1 x2, max y1 y2⟩

/-- Model of `geom.intersection(raster_box)` for a union-of-boxes geometry: the
member-wise intersections that are non-empty. -/
def geomIntersection (g : List BBox) (b : BBox) : List BBox :=
  g.filterMap (fun x => boxIntersection x b)

/-- A loaded raster: reference system code, affine pixel grid (origin at
the top-left corner, positive resolutions, rows running downward) and
row-major single-band pixels. -/
structure RasterGrid where
  crs : Nat
  originX : ℚ
  originY : ℚ
  resX : ℚ
  resY : ℚ
  width : Nat
  height : Nat
  pixels : List Val
deriving DecidableEq, Repr

/-- The raster's geographic footprint, `data.rio.bounds()` as a box. -/
def RasterGrid.bounds (r : RasterGrid) : BBox :=
  ⟨r.originX, r.originY - r.height * r.resY, r.originX + r.width * r.resX, r.originY⟩

/-- The cell covered by the pixel at (row, col). -/
def RasterGrid.pixelCell (r : RasterGrid) (row col : Nat) : BBox :=
  ⟨r.originX + col * r.resX, r.originY - (row + 1) * r.resY,
   r.originX + (col + 1) * r.resX, r.originY - row * r.resY⟩

/-- Reproject the AOI into the raster's reference system when the two
differ (the AOI is assumed to be EPSG:4326 in the source). -/
def reprojectAoi (rasterCrs : Nat) (tr : AffineMap2D) (aoi : List BBox) : List BBox :=
  if rasterCrs ≠ 4326 then aoi.map (applyAffineBox tr) else aoi

/-- The clip of the pixel payload against the clip geometry: a pixel keeps
its value when its cell meets the geometry (`all_touched = true`) or when
its cell center lies in it (`all_touched = false`); other pixels become
missing. -/
def maskOutside (data : RasterGrid) (geom : List BBox) (all_touched : Bool) : List Val :=
  (List.range data.pixels.length).zipWith
    (fun idx px =>
      let cell := data.pixelCell (idx / data.width) (idx % data.width)
      let keep :=
        if all_touched then geom.any (fun gb => (boxIntersection gb cell).isSome)
        else geom.any (fun gb =>
          pointInBox ((cell.minx + cell.maxx) / 2) ((cell.miny + cell.maxy) / 2) gb)
      if keep then px else Val.nan)
    data.pixels

/-- Model of `clip_to_aoi(data, aoi, all_touched)`: reproject the AOI if needed,
intersect it with the raster footprint, fail fast when the intersection is
empty, else clip using the intersection geometry.  The source re-wraps the
raised error inside its catch-all handler, producing the prefixed message. -/
def clip_to_aoi (data : RasterGrid) (aoi : List BBox) (tr : AffineMap2D)
    (all_touched : Bool) : Except String RasterGrid :=
  let geom := reprojectAoi data.crs tr aoi
  let intersection := geomIntersection geom data.bounds
  if intersection.isEmpty then
    Except.error "Failed to clip raster to AOI: AOI does not overlap with raster data"
  else
    Except.ok { data with pixels := maskOutside data intersection all_touched }

end RasterProcessor

/-!
## Temporal compositor

Embedding of `backend/app/services/temporal_compositor.py`.  Rasters are
flat pixel lists (callers guarantee identical grids).  Python timestamps
are modelled by calendar dates; the grouping key is the zero-padded
`"YYYY-MM"` string.  Python's `sorted` on such keys is lexicographic
comparison of code points, modelled by `strLe` below.
-/

/-- Lexicographic comparison of code-point sequences, as Python compares
strings. -/
def strLeAux : List Char → List Char → Bool
  | [], _ => true
  | _ :: _, [] => false
  | a :: as_, b :: bs =>
    if a < b then true else if b < a then false else strLeAux as_ bs

/-- Python string comparison `a <= b`. -/
def strLe (a b : String) : Bool := strLeAux a.data b.data

/-- The ordering proposition used to sort period labels. -/
def sLe (a b : String) : Prop := strLe a b = true

instance : DecidableRel sLe := fun a b => inferInstanceAs (Decidable (strLe a b = true))

/-- A calendar timestamp (the fields of `datetime` the compositor reads). -/
structure Date where
  year : Nat
  month : Nat
  day : Nat
deriving DecidableEq, Repr

/-- Zero-padded two-digit decimal rendering (`f"{n:02d}"` for 0 ≤ n). -/
def pad2 (n : Nat) : String :=
  if n < 10 then "0" ++ toString n else toString n

/-- Zero-padded four-digit decimal rendering (`f"{n:04d}"` for 0 ≤ n). -/
def pad4 (n : Nat) : String :=
  if n < 10 then "000" ++ toString n
  else if n < 100 then "00" ++ toString n
  else if n < 1000 then "0" ++ toString n
  else toString n

namespace TemporalCompositor

/-- The grouping key `f"{ts.year:04d}-{ts.month:02d}"`. -/
def periodKey (ts : Date) : String := pad4 ts.year ++ "-" ++ pad2 ts.month

/-- Running sum and count of the finite entries of a pixel column (the
ingredients of `nanmean` along the stacked time dimension). -/
def sumCount : List Val → ℚ × Nat
  | [] => (0, 0)
  | Val.nan :: vs => sumCount vs
  | Val.num q :: vs => (q + (sumCount vs).1, (sumCount vs).2 + 1)

/-- The `nanmean` of one pixel column: NaN when no finite entry exists, else
the mean of the finite entries. -/
def nanmeanPx (vals : List Val) : Val :=
  let sc := sumCount vals
  if sc.2 = 0 then Val.nan else Val.num (sc.1 / (sc.2 : ℚ))

/-- Model of `_aggregate_mean(images)`: empty input is an error (`none`); a single
image short-circuits to a copy; otherwise the images are stacked along a
time dimension and reduced by `nanmean` per pixel.  The stacked shape is
that of the first image. -/
def aggregate_mean (images : List (List Val)) : Option (List Val) :=
  match images with
  | [] => none
  | img :: rest =>
    if rest.isEmpty then some img
    else
      some ((List.range img.length).map (fun i =>
        nanmeanPx ((img :: rest).map (fun m => m.getD i Val.nan))))

/-- Model of `composite_monthly(images, timestamps)`: contract checks, grouping by
`periodKey` of each image's own timestamp (`defaultdict` keeps each group
in input order), ascending sort of the group keys, and per-group
`_aggregate_mean`.  Sorting makes the order of `dedup` immaterial. -/
def composite_monthly (images : List (List Val)) (timestamps : List Date) :
    Except String (List (String × List Val)) :=
  if images.length ≠ timestamps.length then
    Except.error "images and timestamps must have the same length"
  else if images.isEmpty then
    Except.error "images list must not be empty"
  else
    let pairs := images.zip timestamps
    let keys := (pairs.map (fun p => periodKey p.2)).dedup
    let sortedKeys := keys.insertionSort sLe
    Except.ok (sortedKeys.filterMap (fun k =>
      (aggregate_mean ((pairs.filter (fun p => periodKey p.2 = k)).map Prod.fst)).map
        (fun c => (k, c))))

end TemporalCompositor

/-!
## Batch processor: temporal composite job

Embedding of the read/clip/mask loop and composite step of
`BatchProcessor.process_temporal_composite` in
`backend/batch/batch_processor.py`.  Each element of `fetches` is the
outcome of one image's read + clip + optional cloud-mask pipeline: `none`
when any of those steps raised (the source logs a warning and `continue`s),
`some raster` on success.  After the loop the source calls
`composite_monthly(clipped_images, timestamps[:len(clipped_images)])` —
note the truncation of the timestamp list.
-/

namespace BatchProcessor

def process_temporal_composite (fetches : List (Option (List Val)))
    (timestamps : List Date) : Except String (List (String × List Val)) :=
  if fetches.isEmpty then
    Except.error "image_urls is required for composite task"
  else if timestamps.isEmpty then
    Except.error "image_timestamps is required for composite task"
  else if fetches.length ≠ timestamps.length then
    Except.error "image_urls and image_timestamps must have the same length"
  else
    let clipped := fetches.filterMap id
    if clipped.isEmpty then
      Except.error "No images could be read successfully"
    else
      TemporalCompositor.composite_monthly clipped (timestamps.take clipped.length)

end BatchProcessor

/-! Helper lemmas for reading elementwise results back pointwise. -/

theorem getD_zipWith {α β γ : Type} (f : α → β → γ) (d1 : α) (d2 : β) (d3 : γ) :
    ∀ (l1 : List α) (l2 : List β) (i : Nat), i < l1.length → i < l2.length →
      (List.zipWith f l1 l2).getD i d3 = f (l1.getD i d1) (l2.getD i d2) := by
  intro l1
  induction l1 with
  | nil => intro l2 i h1 _; exact absurd h1 (by simp)
  | cons a as ih =>
    intro l2 i h1 h2
    cases l2 with
    | nil => exact absurd h2 (by simp)
    | cons b bs =>
      cases i with
      | zero => rfl
      | succ j =>
        simp only [List.zipWith_cons_cons, List.getD_cons_succ]
        exact ih bs j (Nat.lt_of_succ_lt_succ h1) (Nat.lt_of_succ_lt_succ h2)

theorem getD_zipWith3 {α β γ δ : Type} (f : α → β → γ → δ) (d1 : α) (d2 : β) (d3 : γ)
    (d4 : δ) :
    ∀ (l1 : List α) (l2 : List β) (l3 : List γ) (i : Nat),
      i < l1.length → i < l2.length → i < l3.length →
      (zipWith3 f l1 l2 l3).getD i d4 = f (l1.getD i d1) (l2.getD i d2) (l3.getD i d3) := by
  intro l1
  induction l1 with
  | nil => intro l2 l3 i h1 _ _; exact absurd h1 (by simp)
  | cons a as ih =>
    intro l2 l3 i h1 h2 h3
    cases l2 with
    | nil => exact absurd h2 (by simp)
    | cons b bs =>
      cases l3 with
      | nil => exact absurd h3 (by simp)
      | cons c cs =>
        cases i with
        | zero => rfl
        | succ j =>
          simp only [zipWith3, List.getD_cons_succ]
          exact ih bs cs j (Nat.lt_of_succ_lt_succ h1) (Nat.lt_of_succ_lt_succ h2)
            (Nat.lt_of_succ_lt_succ h3)

theorem getD_map {α β : Type} (f : α → β) (d1 : α) (d2 : β) :
    ∀ (l : List α) (i : Nat), i < l.length → (l.map f).getD i d2 = f (l.getD i d1) := by
  intro l
  induction l with
  | nil => intro i h; exact absurd h (by simp)
  | cons a as ih =>
    intro i h
    cases i with
    | zero => rfl
    | succ j =>
      simp only [List.map_cons, List.getD_cons_succ]
      exact ih j (Nat.lt_of_succ_lt_succ h)

namespace VegetationIndexCalculator

/-- The guarded division branch is never taken on an exactly-zero
denominator. -/
theorem neZero_num_zero : Val.neZero (Val.num 0) = false := by decide

theorem ndviPx_zero_denom (n r : Val) (h : Val.add n r = Val.num 0) :
    ndviPx n r = Val.num 0 := by
  cases n with
  | nan => exact absurd h (by simp [Val.add])
  | num a =>
    cases r with
    | nan => exact absurd h (by simp [Val.add])
    | num b =>
      simp only [Val.add, Val.num.injEq] at h
      simp [ndviPx, Val.add, Val.neZero, h]

theorem saviPx_zero_denom (L : ℚ) (n r : Val)
    (h : Val.add (Val.add n r) (Val.num L) = Val.num 0) :
    saviPx L n r = Val.num 0 := by
  cases n with
  | nan => exact absurd h (by simp [Val.add])
  | num a =>
    cases r with
    | nan => exact absurd h (by simp [Val.add])
    | num b =>
      simp only [Val.add, Val.num.injEq] at h
      simp [saviPx, Val.add, Val.neZero, h]

theorem eviPx_zero_denom (n r b : Val)
    (h : Val.add (Val.sub (Val.add n (Val.mul (Val.num 6) r)) (Val.mul (Val.num (15/2)) b))
      (Val.num 1) = Val.num 0) :
    eviPx n r b = Val.num 0 := by
  cases n with
  | nan => exact absurd h (by cases r <;> cases b <;> simp [Val.add, Val.sub, Val.mul])
  | num x =>
    cases r with
    | nan => exact absurd h (by cases b <;> simp [Val.add, Val.sub, Val.mul])
    | num y =>
      cases b with
      | nan => exact absurd h (by simp [Val.add, Val.sub, Val.mul])
      | num z =>
        simp only [Val.add, Val.sub, Val.mul, Val.num.injEq] at h
        simp [eviPx, Val.add, Val.sub, Val.mul, Val.neZero, h]

theorem vgiPx_zero_denom (g r : Val) (h : r = Val.num 0) :
    vgiPx g r = Val.num 0 := by
  subst h
  simp [vgiPx, Val.neZero]

/-- Claim C4: at every pixel where the formula's denominator is exactly
zero, `calculate_ndvi`, `calculate_savi`, `calculate_evi` and
`calculate_vgi` return exactly 0 (a finite zero, hence neither NaN nor an
infinity).  The functions are total Lean definitions, so no exception can
be raised. -/
theorem zero_denominator_yields_zero (nir red blue green : List Val) (L : ℚ) (i : Nat)
    (hn : i < nir.length) (hr : i < red.length) (hb : i < blue.length)
    (hg : i < green.length) :
    (Val.add (nir.getD i Val.nan) (red.getD i Val.nan) = Val.num 0 →
      (calculate_ndvi nir red).getD i Val.nan = Val.num 0) ∧
    (Val.add (Val.add (nir.getD i Val.nan) (red.getD i Val.nan)) (Val.num L) = Val.num 0 →
      (calculate_savi nir red L).getD i Val.nan = Val.num 0) ∧
    (Val.add (Val.sub (Val.add (nir.getD i Val.nan) (Val.mul (Val.num 6) (red.getD i Val.nan)))
        (Val.mul (Val.num (15/2)) (blue.getD i Val.nan))) (Val.num 1) = Val.num 0 →
      (calculate_evi nir red blue).getD i Val.nan = Val.num 0) ∧
    (red.getD i Val.nan = Val.num 0 →
      (calculate_vgi green red).getD i Val.nan = Val.num 0) := by
  refine ⟨?_, ?_, ?_, ?_⟩
  · intro h
    rw [calculate_ndvi, getD_zipWith _ Val.nan Val.nan Val.nan nir red i hn hr]
    exact ndviPx_zero_denom _ _ h
  · intro h
    rw [calculate_savi, getD_zipWith _ Val.nan Val.nan Val.nan nir red i hn hr]
    exact saviPx_zero_denom L _ _ h
  · intro h
    rw [calculate_evi, getD_zipWith3 _ Val.nan Val.nan Val.nan Val.nan nir red blue i hn hr hb]
    exact eviPx_zero_denom _ _ _ h
  · intro h
    rw [calculate_vgi, getD_zipWith _ Val.nan Val.nan Val.nan green red i hg hr]
    exact vgiPx_zero_denom _ _ h

/-- Witness for claim C4 at a concrete pixel where all four denominators
are exactly zero. -/
theorem zero_denominator_yields_zero_witness :
    0 < ([Val.num 0] : List Val).length ∧
    (Val.add (([Val.num 0] : List Val).getD 0 Val.nan)
        (([Val.num 0] : List Val).getD 0 Val.nan) = Val.num 0 →
      (calculate_ndvi [Val.num 0] [Val.num 0]).getD 0 Val.nan = Val.num 0) ∧
    (Val.add (Val.add (([Val.num 0] : List Val).getD 0 Val.nan)
        (([Val.num 0] : List Val).getD 0 Val.nan)) (Val.num 0) = Val.num 0 →
      (calculate_savi [Val.num 0] [Val.num 0] 0).getD 0 Val.nan = Val.num 0) ∧
    (Val.add (Val.sub (Val.add (([Val.num 0] : List Val).getD 0 Val.nan)
          (Val.mul (Val.num 6) (([Val.num 0] : List Val).getD 0 Val.nan)))
        (Val.mul (Val.num (15/2)) (([Val.num (2/15)] : List Val).getD 0 Val.nan)))
        (Val.num 1) = Val.num 0 →
      (calculate_evi [Val.num 0] [Val.num 0] [Val.num (2/15)]).getD 0 Val.nan = Val.num 0) ∧
    (([Val.num 0] : List Val).getD 0 Val.nan = Val.num 0 →
      (calculate_vgi [Val.num 5] [Val.num 0]).getD 0 Val.nan = Val.num 0) :=
  ⟨by decide,
    zero_denominator_yields_zero [Val.num 0] [Val.num 0] [Val.num (2/15)] [Val.num 5] 0 0
      (by decide) (by decide) (by decide) (by decide)⟩

/-- Claim C5: for every pair of equal-shaped arrays, SAVI with soil factor
L = 0 coincides pixel for pixel with NDVI. -/
theorem savi_L0_eq_ndvi (nir red : List Val) :
    calculate_savi nir red 0 = calculate_ndvi nir red := by
  unfold calculate_savi calculate_ndvi
  congr 1
  funext n r
  cases n with
  | nan => cases r <;> rfl
  | num a =>
    cases r with
    | nan => rfl
    | num b =>
      simp only [saviPx, ndviPx, Val.add, Val.sub, Val.mul, Val.div, Val.neZero, add_zero,
        zero_add, one_mul]

theorem ndviPx_nan_left (r : Val) : ndviPx Val.nan r = Val.nan := by cases r <;> rfl

theorem ndviPx_nan_right (n : Val) : ndviPx n Val.nan = Val.nan := by cases n <;> rfl

theorem saviPx_nan_left (L : ℚ) (r : Val) : saviPx L Val.nan r = Val.nan := by cases r <;> rfl

theorem saviPx_nan_right (L : ℚ) (n : Val) : saviPx L n Val.nan = Val.nan := by cases n <;> rfl

theorem eviPx_nan_fst (r b : Val) : eviPx Val.nan r b = Val.nan := by
  cases r <;> cases b <;> rfl

theorem eviPx_nan_snd (n b : Val) : eviPx n Val.nan b = Val.nan := by
  cases n <;> cases b <;> rfl

theorem eviPx_nan_thd (n r : Val) : eviPx n r Val.nan = Val.nan := by
  cases n <;> cases r <;> rfl

theorem vgiPx_nan_right (g : Val) : vgiPx g Val.nan = Val.nan := by cases g <;> rfl

theorem vgiPx_nan_left (r : Val) (h : r ≠ Val.num 0) : vgiPx Val.nan r = Val.nan := by
  cases r with
  | nan => rfl
  | num b =>
    have hb : b ≠ 0 := fun e => h (by rw [e])
    simp [vgiPx, Val.neZero, Val.div, hb]

/-- Claim C10: a pixel at which some input band is NaN and the computed
denominator is not exactly zero yields NaN in the output of each index
function, so masked (missing) pixels stay missing; the hard-zero result
only arises from the exact-zero denominator branch. -/
theorem nan_input_propagates (nir red blue green : List Val) (L : ℚ) (i : Nat)
    (hn : i < nir.length) (hr : i < red.length) (hb : i < blue.length)
    (hg : i < green.length) :
    ((nir.getD i Val.nan = Val.nan ∨ red.getD i Val.nan = Val.nan) →
      Val.add (nir.getD i Val.nan) (red.getD i Val.nan) ≠ Val.num 0 →
      (calculate_ndvi nir red).getD i Val.nan = Val.nan) ∧
    ((nir.getD i Val.nan = Val.nan ∨ red.getD i Val.nan = Val.nan) →
      Val.add (Val.add (nir.getD i Val.nan) (red.getD i Val.nan)) (Val.num L) ≠ Val.num 0 →
      (calculate_savi nir red L).getD i Val.nan = Val.nan) ∧
    ((nir.getD i Val.nan = Val.nan ∨ red.getD i Val.nan = Val.nan ∨
        blue.getD i Val.nan = Val.nan) →
      Val.add (Val.sub (Val.add (nir.getD i Val.nan) (Val.mul (Val.num 6) (red.getD i Val.nan)))
        (Val.mul (Val.num (15/2)) (blue.getD i Val.nan))) (Val.num 1) ≠ Val.num 0 →
      (calculate_evi nir red blue).getD i Val.nan = Val.nan) ∧
    ((green.getD i Val.nan = Val.nan ∨ red.getD i Val.nan = Val.nan) →
      red.getD i Val.nan ≠ Val.num 0 →
      (calculate_vgi green red).getD i Val.nan = Val.nan) := by
  refine ⟨?_, ?_, ?_, ?_⟩
  · intro h _
    rw [calculate_ndvi, getD_zipWith _ Val.nan Val.nan Val.nan nir red i hn hr]
    rcases h with h | h
    · rw [h]; exact ndviPx_nan_left _
    · rw [h]; exact ndviPx_nan_right _
  · intro h _
    rw [calculate_savi, getD_zipWith _ Val.nan Val.nan Val.nan nir red i hn hr]
    rcases h with h | h
    · rw [h]; exact saviPx_nan_left L _
    · rw [h]; exact saviPx_nan_right L _
  · intro h _
    rw [calculate_evi, getD_zipWith3 _ Val.nan Val.nan Val.nan Val.nan nir red blue i hn hr hb]
    rcases h with h | h | h
    · rw [h]; exact eviPx_nan_fst _ _
    · rw [h]; exact eviPx_nan_snd _ _
    · rw [h]; exact eviPx_nan_thd _ _
  · intro h hne
    rw [calculate_vgi, getD_zipWith _ Val.nan Val.nan Val.nan green red i hg hr]
    rcases h with h | h
    · rw [h]; exact vgiPx_nan_left _ hne
    · rw [h]; exact vgiPx_nan_right _

/-- Witness for claim C10 at a concrete pixel with NaN band inputs and
nonzero denominators. -/
theorem nan_input_propagates_witness :
    0 < ([Val.nan] : List Val).length ∧
    ((([Val.nan] : List Val).getD 0 Val.nan = Val.nan ∨
        ([Val.num 1] : List Val).getD 0 Val.nan = Val.nan) →
      Val.add (([Val.nan] : List Val).getD 0 Val.nan)
        (([Val.num 1] : List Val).getD 0 Val.nan) ≠ Val.num 0 →
      (calculate_ndvi [Val.nan] [Val.num 1]).getD 0 Val.nan = Val.nan) ∧
    ((([Val.nan] : List Val).getD 0 Val.nan = Val.nan ∨
        ([Val.num 1] : List Val).getD 0 Val.nan = Val.nan) →
      Val.add (Val.add (([Val.nan] : List Val).getD 0 Val.nan)
        (([Val.num 1] : List Val).getD 0 Val.nan)) (Val.num (1/2)) ≠ Val.num 0 →
      (calculate_savi [Val.nan] [Val.num 1] (1/2)).getD 0 Val.nan = Val.nan) ∧
    ((([Val.nan] : List Val).getD 0 Val.nan = Val.nan ∨
        ([Val.num 1] : List Val).getD 0 Val.nan = Val.nan ∨
        ([Val.num 1] : List Val).getD 0 Val.nan = Val.nan) →
      Val.add (Val.sub (Val.add (([Val.nan] : List Val).getD 0 Val.nan)
        (Val.mul (Val.num 6) (([Val.num 1] : List Val).getD 0 Val.nan)))
        (Val.mul (Val.num (15/2)) (([Val.num 1] : List Val).getD 0 Val.nan)))
        (Val.num 1) ≠ Val.num 0 →
      (calculate_evi [Val.nan] [Val.num 1] [Val.num 1]).getD 0 Val.nan = Val.nan) ∧
    ((([Val.nan] : List Val).getD 0 Val.nan = Val.nan ∨
        ([Val.num 1] : List Val).getD 0 Val.nan = Val.nan) →
      ([Val.num 1] : List Val).getD 0 Val.nan ≠ Val.num 0 →
      (calculate_vgi [Val.nan] [Val.num 1]).getD 0 Val.nan = Val.nan) :=
  ⟨by decide,
    nan_input_propagates [Val.nan] [Val.num 1] [Val.num 1] [Val.nan] (1/2) 0
      (by decide) (by decide) (by decide) (by decide)⟩

end VegetationIndexCalculator


namespace RasterProcessor

/-- Claim C1 counterexample: a Sentinel-2 pixel whose classification code
is 11 (snow/ice) is NOT turned into NaN by `apply_cloud_mask` — its value
passes through unchanged, contradicting the claim that of the codes
{0,1,3,4,5,6,7,8,9,10,11} only {4,5,6,7} survive unmasked. -/
theorem cloud_mask_scl11_survives :
    apply_cloud_mask [[Val.num 7]] [11] "sentinel-2" = Except.ok [[Val.num 7]] ∧
    Val.num 7 ≠ Val.nan :=
  ⟨rfl, by decide⟩

/-- Claim C1 (amended): sweeping a quality code from
{0,1,3,4,5,6,7,8,9,10,11} through `apply_cloud_mask` with the
classification-style sensor "sentinel-2", exactly the codes {4,5,6,7,11}
leave the pixel value unchanged (after float conversion) and the codes
{0,1,3,8,9,10} turn the pixel into missing (NaN). -/
theorem cloud_mask_sentinel2_classification (bands : List (List Val)) (qa : List ℤ)
    (b i : Nat) (hb : b < bands.length) (hi1 : i < (bands.getD b []).length)
    (hi2 : i < qa.length)
    (hc : qa.getD i 0 ∈ ([0, 1, 3, 4, 5, 6, 7, 8, 9, 10, 11] : List ℤ)) :
    ∃ out, apply_cloud_mask bands qa "sentinel-2" = Except.ok out ∧
      (out.getD b []).getD i Val.nan =
        (if qa.getD i 0 ∈ ([4, 5, 6, 7, 11] : List ℤ)
         then (bands.getD b []).getD i Val.nan else Val.nan) := by
  refine ⟨bands.map (fun band =>
      List.zipWith (fun m px => if m then Val.nan else px)
        (qa.map (fun v => decide (v ∈ sentinel2BadClasses))) band), ?_, ?_⟩
  · unfold apply_cloud_mask
    rw [if_neg (by simp)]
    simp only []
    rw [if_pos trivial]
  · rw [getD_map _ ([] : List Val) ([] : List Val) bands b hb,
      getD_zipWith _ false Val.nan Val.nan _ _ i
        (by rw [List.length_map]; exact hi2) hi1,
      getD_map _ (0 : ℤ) false qa i hi2]
    simp only [List.mem_cons, List.not_mem_nil, or_false] at hc
    rcases hc with h | h | h | h | h | h | h | h | h | h | h <;>
      rw [h] <;> simp [sentinel2BadClasses]

/-- Witness for claim C1 (amended) at a one-band, one-pixel raster whose
quality code is 8 (cloud, medium probability): the pixel becomes missing. -/
theorem cloud_mask_sentinel2_classification_witness :
    0 < ([[Val.num 3]] : List (List Val)).length ∧
    0 < (([[Val.num 3]] : List (List Val)).getD 0 []).length ∧
    0 < ([(8 : ℤ)] : List ℤ).length ∧
    ([(8 : ℤ)] : List ℤ).getD 0 0 ∈ ([0, 1, 3, 4, 5, 6, 7, 8, 9, 10, 11] : List ℤ) ∧
    ∃ out, apply_cloud_mask [[Val.num 3]] [(8 : ℤ)] "sentinel-2" = Except.ok out ∧
      (out.getD 0 []).getD 0 Val.nan =
        (if ([(8 : ℤ)] : List ℤ).getD 0 0 ∈ ([4, 5, 6, 7, 11] : List ℤ)
         then (([[Val.num 3]] : List (List Val)).getD 0 []).getD 0 Val.nan else Val.nan) :=
  ⟨by decide, by decide, by decide, by decide,
    cloud_mask_sentinel2_classification [[Val.num 3]] [(8 : ℤ)] 0 0
      (by decide) (by decide) (by decide) (by decide)⟩

theorem overviewLevelsAux_mem (maxDim t : Nat) :
    ∀ (fuel level l : Nat), 0 < level →
      (l ∈ overviewLevelsAux maxDim t fuel level ↔
        ∃ j, j < fuel ∧ l = level * 2 ^ j ∧ t * (level * 2 ^ j) < maxDim) := by
  intro fuel
  induction fuel with
  | zero => intro level l _; simp [overviewLevelsAux]
  | succ f ih =>
    intro level l hlev
    rw [overviewLevelsAux]
    by_cases hcond : t * level < maxDim
    · rw [if_pos hcond]
      constructor
      · intro hmem
        rcases List.mem_cons.mp hmem with h | h
        · exact ⟨0, Nat.succ_pos f, by simpa using h, by simpa using hcond⟩
        · obtain ⟨j, hj, hl, hlt⟩ := (ih (level * 2) l (by omega)).mp h
          refine ⟨j + 1, by omega, by rw [hl]; ring, ?_⟩
          calc t * (level * 2 ^ (j + 1)) = t * (level * 2 * 2 ^ j) := by ring
            _ < maxDim := hlt
      · rintro ⟨j, hj, hl, hlt⟩
        cases j with
        | zero =>
          have : l = level := by simpa using hl
          rw [this]
          exact List.mem_cons_self level _
        | succ j2 =>
          apply List.mem_cons_of_mem
          refine (ih (level * 2) l (by omega)).mpr ⟨j2, by omega, by rw [hl]; ring, ?_⟩
          calc t * (level * 2 * 2 ^ j2) = t * (level * 2 ^ (j2 + 1)) := by ring
            _ < maxDim := hlt
    · rw [if_neg hcond]
      simp only [List.not_mem_nil, false_iff]
      rintro ⟨j, hj, hl, hlt⟩
      apply hcond
      have h1 : (1 : Nat) ≤ 2 ^ j := Nat.one_le_two_pow
      calc t * level ≤ t * (level * 2 ^ j) := by
            apply Nat.mul_le_mul_left
            calc level = level * 1 := by ring
              _ ≤ level * 2 ^ j := Nat.mul_le_mul_left level h1
        _ < maxDim := hlt

theorem overviewLevelsAux_chain (maxDim t : Nat) :
    ∀ fuel level, List.Chain' (fun a b => b = a * 2) (overviewLevelsAux maxDim t fuel level) := by
  intro fuel
  induction fuel with
  | zero => intro level; simp [overviewLevelsAux]
  | succ f ih =>
    intro level
    rw [overviewLevelsAux]
    by_cases hcond : t * level < maxDim
    · rw [if_pos hcond, List.chain'_cons']
      refine ⟨?_, ih (level * 2)⟩
      intro b hb
      cases f with
      | zero => simp [overviewLevelsAux] at hb
      | succ f2 =>
        rw [overviewLevelsAux] at hb
        by_cases hcond2 : t * (level * 2) < maxDim
        · rw [if_pos hcond2] at hb
          simp only [List.head?_cons, Option.mem_def, Option.some.injEq] at hb
          omega
        · rw [if_neg hcond2] at hb
          simp at hb
    · rw [if_neg hcond]
      simp

theorem computeOverviewLevels_mem (w h t l : Nat) (ht : 0 < t) :
    l ∈ computeOverviewLevels w h t ↔
      ∃ k, 1 ≤ k ∧ l = 2 ^ k ∧ t * 2 ^ k < max w h := by
  unfold computeOverviewLevels
  rw [overviewLevelsAux_mem (max w h) t (max w h) 2 l (by norm_num)]
  constructor
  · rintro ⟨j, hj, hl, hlt⟩
    refine ⟨j + 1, by omega, by rw [hl]; ring, ?_⟩
    calc t * 2 ^ (j + 1) = t * (2 * 2 ^ j) := by ring
      _ < max w h := hlt
  · rintro ⟨k, hk, hl, hlt⟩
    obtain ⟨j, rfl⟩ : ∃ j, k = j + 1 := ⟨k - 1, by omega⟩
    have h1 : 2 ^ (j + 1) ≤ t * 2 ^ (j + 1) := Nat.le_mul_of_pos_left _ ht
    have h2 : j + 1 < 2 ^ (j + 1) := Nat.lt_two_pow (j + 1)
    refine ⟨j, by omega, by rw [hl]; ring, ?_⟩
    calc t * (2 * 2 ^ j) = t * 2 ^ (j + 1) := by ring
      _ < max w h := hlt

/-- Claim C2 counterexample: a raster whose largest dimension (513) exceeds
the tile size (512) but does not exceed twice the tile size is written with
NO overview levels, contradicting the claim that such a file exposes at
least one overview level. -/
theorem to_cog_no_overview_at_513 :
    512 < 513 ∧ (to_cog [[Val.num 0]] 513 1 "DEFLATE" 512 none).overviews = [] :=
  ⟨by norm_num, by decide⟩

/-- Claim C2 (amended): without explicit overview levels the pyramid
consists of the factors 2, 4, 8, ... (each level doubling the previous
one), containing exactly those powers 2^k (k ≥ 1) for which the largest
raster dimension divided by the factor still exceeds the tile size; in
particular at least one overview level exists exactly when the largest
dimension exceeds TWICE the tile size. -/
theorem to_cog_overview_pyramid (px : List (List Val)) (w h : Nat) (c : String)
    (t : Nat) (ht : 0 < t) :
    (∀ l : Nat, l ∈ (to_cog px w h c t none).overviews ↔
      ∃ k, 1 ≤ k ∧ l = 2 ^ k ∧ t * 2 ^ k < max w h) ∧
    List.Chain' (fun a b => b = a * 2) (to_cog px w h c t none).overviews ∧
    ((to_cog px w h c t none).overviews ≠ [] ↔ t * 2 < max w h) := by
  have hov : (to_cog px w h c t none).overviews = computeOverviewLevels w h t := rfl
  rw [hov]
  refine ⟨fun l => computeOverviewLevels_mem w h t l ht,
    overviewLevelsAux_chain (max w h) t (max w h) 2, ?_⟩
  unfold computeOverviewLevels
  cases hmd : max w h with
  | zero => simp [overviewLevelsAux]
  | succ m =>
    rw [overviewLevelsAux]
    by_cases hcond : t * 2 < Nat.succ m
    · rw [if_pos hcond]
      simp [hcond]
    · rw [if_neg hcond]
      simp [hcond]

/-- Witness for claim C2 (amended) at a 2050 x 1 raster with tile size 512:
the overview pyramid is exactly the factors 2 and 4. -/
theorem to_cog_overview_pyramid_witness :
    (0 : Nat) < 512 ∧
    ((∀ l : Nat, l ∈ (to_cog [[Val.num 0]] 2050 1 "DEFLATE" 512 none).overviews ↔
      ∃ k, 1 ≤ k ∧ l = 2 ^ k ∧ 512 * 2 ^ k < max 2050 1) ∧
    List.Chain' (fun a b => b = a * 2)
      (to_cog [[Val.num 0]] 2050 1 "DEFLATE" 512 none).overviews ∧
    ((to_cog [[Val.num 0]] 2050 1 "DEFLATE" 512 none).overviews ≠ [] ↔
      512 * 2 < max 2050 1)) :=
  ⟨by norm_num, to_cog_overview_pyramid [[Val.num 0]] 2050 1 "DEFLATE" 512 (by norm_num)⟩

end RasterProcessor


/-! Properties of the modelled Python string comparison. -/

theorem strLeAux_total : ∀ (as_ bs : List Char),
    strLeAux as_ bs = true ∨ strLeAux bs as_ = true := by
  intro as_
  induction as_ with
  | nil => intro bs; left; rfl
  | cons a as2 ih =>
    intro bs
    cases bs with
    | nil => right; rfl
    | cons b bs2 =>
      simp only [strLeAux]
      by_cases hab : a < b
      · left; rw [if_pos hab]
      · by_cases hba : b < a
        · right; rw [if_pos hba]
        · simp only [if_neg hab, if_neg hba]
          exact ih bs2

theorem strLeAux_trans : ∀ (as_ bs cs : List Char),
    strLeAux as_ bs = true → strLeAux bs cs = true → strLeAux as_ cs = true := by
  intro as_
  induction as_ with
  | nil => intro bs cs _ _; rfl
  | cons a as2 ih =>
    intro bs cs h1 h2
    cases bs with
    | nil => simp [strLeAux] at h1
    | cons b bs2 =>
      cases cs with
      | nil => simp [strLeAux] at h2
      | cons c cs2 =>
        simp only [strLeAux] at h1 h2 ⊢
        by_cases hab : a < b
        · by_cases hbc : b < c
          · rw [if_pos (lt_trans hab hbc)]
          · have hcb : ¬ c < b := by
              intro hcb
              rw [if_neg hbc, if_pos hcb] at h2
              exact absurd h2 (by decide)
            have hbceq : b = c := le_antisymm (not_lt.mp hcb) (not_lt.mp hbc)
            rw [if_pos (hbceq ▸ hab)]
        · have hba : ¬ b < a := by
            intro hba
            rw [if_neg hab, if_pos hba] at h1
            exact absurd h1 (by decide)
          have habeq : a = b := le_antisymm (not_lt.mp hba) (not_lt.mp hab)
          subst habeq
          rw [if_neg hab, if_neg hba] at h1
          by_cases hac : a < c
          · rw [if_pos hac]
          · have hca : ¬ c < a := by
              intro hca
              rw [if_neg hac, if_pos hca] at h2
              exact absurd h2 (by decide)
            rw [if_neg hac, if_neg hca] at h2 ⊢
            exact ih bs2 cs2 h1 h2

theorem strLeAux_antisymm : ∀ (as_ bs : List Char),
    strLeAux as_ bs = true → strLeAux bs as_ = true → as_ = bs := by
  intro as_
  induction as_ with
  | nil =>
    intro bs _ h2
    cases bs with
    | nil => rfl
    | cons b bs2 => simp [strLeAux] at h2
  | cons a as2 ih =>
    intro bs h1 h2
    cases bs with
    | nil => simp [strLeAux] at h1
    | cons b bs2 =>
      simp only [strLeAux] at h1 h2
      by_cases hab : a < b
      · rw [if_neg (lt_asymm hab), if_pos hab] at h2
        exact absurd h2 (by decide)
      · by_cases hba : b < a
        · rw [if_neg hab, if_pos hba] at h1
          exact absurd h1 (by decide)
        · rw [if_neg hab, if_neg hba] at h1
          rw [if_neg hba, if_neg hab] at h2
          have habeq : a = b := le_antisymm (not_lt.mp hba) (not_lt.mp hab)
          rw [habeq, ih bs2 h1 h2]

instance : IsTotal String sLe := ⟨fun a b => strLeAux_total a.data b.data⟩

instance : IsTrans String sLe := ⟨fun a b c => strLeAux_trans a.data b.data c.data⟩

instance : IsAntisymm String sLe :=
  ⟨fun a b h1 h2 => by
    have h := strLeAux_antisymm a.data b.data h1 h2
    cases a
    cases b
    exact congrArg String.mk h⟩

theorem range_getD (n i : Nat) (h : i < n) : (List.range n).getD i 0 = i := by
  rw [List.getD_eq_getElem (List.range n) 0 (by simpa using h)]
  simp

namespace TemporalCompositor

/-- The single-image short-circuit of `_aggregate_mean`. -/
theorem aggregate_mean_singleton (r : List Val) : aggregate_mean [r] = some r := rfl

/-- The model of `_aggregate_mean` succeeds on every non-empty group. -/
theorem aggregate_mean_of_ne_nil (imgs : List (List Val)) (h : imgs ≠ []) :
    ∃ c, aggregate_mean imgs = some c := by
  cases imgs with
  | nil => exact absurd rfl h
  | cons img rest =>
    cases rest with
    | nil => exact ⟨img, rfl⟩
    | cons r2 rest2 => exact ⟨_, rfl⟩

theorem sumCount_eq (vals : List Val) :
    sumCount vals = ((vals.filterMap Val.numPart).sum, (vals.filterMap Val.numPart).length) := by
  induction vals with
  | nil => rfl
  | cons v vs ih =>
    cases v with
    | nan => simpa [sumCount, Val.numPart, List.filterMap_cons] using ih
    | num q => simp [sumCount, Val.numPart, List.filterMap_cons, ih]

theorem nanmeanPx_all_nan (vals : List Val) (h : vals.filterMap Val.numPart = []) :
    nanmeanPx vals = Val.nan := by
  unfold nanmeanPx
  rw [sumCount_eq, h]
  simp

theorem nanmeanPx_present (vals : List Val) (h : vals.filterMap Val.numPart ≠ []) :
    nanmeanPx vals = Val.num ((vals.filterMap Val.numPart).sum /
      ((vals.filterMap Val.numPart).length : ℚ)) := by
  unfold nanmeanPx
  rw [sumCount_eq]
  have hne : (vals.filterMap Val.numPart).length ≠ 0 := by
    simpa [List.length_eq_zero] using h
  simp [hne]

/-- Claim C8: a group containing exactly one raster composites to a copy of
that raster with all pixel values unchanged — both at the
`_aggregate_mean` short-circuit and end to end through
`composite_monthly` on a single-member group. -/
theorem single_member_group_identity :
    (∀ r : List Val, aggregate_mean [r] = some r) ∧
    (∀ (r : List Val) (d : Date),
      composite_monthly [r] [d] = Except.ok [(periodKey d, r)]) := by
  refine ⟨fun r => aggregate_mean_singleton r, fun r d => ?_⟩
  unfold composite_monthly
  rw [if_neg (by simp), if_neg (by simp)]
  simp [List.insertionSort, List.orderedInsert, List.filterMap_cons, List.filter,
    aggregate_mean_singleton]

/-- Claim C7: for a group of two or more rasters, the composite's value at
each pixel is the `nanmean` of exactly the member values at that pixel: a
pixel that is NaN in every member stays NaN, and a pixel with at least one
finite member value equals the mean of only those finite values. -/
theorem aggregate_mean_nanmean (imgs : List (List Val)) (h2 : 2 ≤ imgs.length)
    (i : Nat) (hi : i < (imgs.headD []).length) :
    ∃ c, aggregate_mean imgs = some c ∧
      ((∀ m ∈ imgs, m.getD i Val.nan = Val.nan) → c.getD i Val.nan = Val.nan) ∧
      ((imgs.map (fun m => m.getD i Val.nan)).filterMap Val.numPart ≠ [] →
        c.getD i Val.nan = Val.num
          (((imgs.map (fun m => m.getD i Val.nan)).filterMap Val.numPart).sum /
           (((imgs.map (fun m => m.getD i Val.nan)).filterMap Val.numPart).length : ℚ))) := by
  cases imgs with
  | nil => exact absurd h2 (by simp)
  | cons img rest =>
    cases rest with
    | nil => exact absurd h2 (by simp)
    | cons r2 rest2 =>
      have hpx : ((List.range img.length).map (fun j =>
          nanmeanPx ((img :: r2 :: rest2).map (fun m => m.getD j Val.nan)))).getD i Val.nan =
          nanmeanPx ((img :: r2 :: rest2).map (fun m => m.getD i Val.nan)) := by
        rw [getD_map _ 0 Val.nan (List.range img.length) i (by simpa using hi),
          range_getD img.length i (by simpa using hi)]
      refine ⟨_, rfl, ?_, ?_⟩ <;> intro h
      · rw [hpx]
        apply nanmeanPx_all_nan
        rw [List.filterMap_eq_nil_iff]
        intro x hx
        obtain ⟨m, hm, rfl⟩ := List.mem_map.mp hx
        rw [h m hm]
        rfl
      · rw [hpx]
        exact nanmeanPx_present _ h


/-- Witness for claim C7: two rasters, pixel 0 NaN in both members (stays
NaN), pixel 1 finite in both (mean of the present values). -/
theorem aggregate_mean_nanmean_witness :
    2 ≤ ([[Val.nan, Val.num 1], [Val.nan, Val.num 3]] : List (List Val)).length ∧
    1 < (([[Val.nan, Val.num 1], [Val.nan, Val.num 3]] : List (List Val)).headD []).length ∧
    ∃ c, aggregate_mean [[Val.nan, Val.num 1], [Val.nan, Val.num 3]] = some c ∧
      ((∀ m ∈ ([[Val.nan, Val.num 1], [Val.nan, Val.num 3]] : List (List Val)),
          m.getD 1 Val.nan = Val.nan) → c.getD 1 Val.nan = Val.nan) ∧
      ((([[Val.nan, Val.num 1], [Val.nan, Val.num 3]] : List (List Val)).map
          (fun m => m.getD 1 Val.nan)).filterMap Val.numPart ≠ [] →
        c.getD 1 Val.nan = Val.num
          (((([[Val.nan, Val.num 1], [Val.nan, Val.num 3]] : List (List Val)).map
              (fun m => m.getD 1 Val.nan)).filterMap Val.numPart).sum /
           (((([[Val.nan, Val.num 1], [Val.nan, Val.num 3]] : List (List Val)).map
              (fun m => m.getD 1 Val.nan)).filterMap Val.numPart).length : ℚ))) :=
  ⟨by decide, by decide,
    aggregate_mean_nanmean [[Val.nan, Val.num 1], [Val.nan, Val.num 3]]
      (by decide) 1 (by decide)⟩

/-- When every key of a list is backed by a group, `filterMap` keeps every
key, pairing it with its group value. -/
theorem filterMap_keyed {ν : Type} (g : String → Option ν) :
    ∀ (s : List String), (∀ x ∈ s, ∃ y, g x = some y) →
      (s.filterMap (fun k => (g k).map (fun v => (k, v)))).map Prod.fst = s := by
  intro s
  induction s with
  | nil => intro _; rfl
  | cons x s2 ih =>
    intro h
    obtain ⟨y, hy⟩ := h x (List.mem_cons_self x s2)
    rw [List.filterMap_cons]
    simp only [hy, Option.map_some', List.map_cons]
    rw [ih (fun z hz => h z (List.mem_cons_of_mem _ hz))]

/-- Every group key drawn from the input pairs has a non-empty group, so
`_aggregate_mean` succeeds on it. -/
theorem composite_groups_some (pairs : List ((List Val) × Date)) (k : String)
    (hk : k ∈ pairs.map (fun p => periodKey p.2)) :
    ∃ c, aggregate_mean
      ((pairs.filter (fun p => periodKey p.2 = k)).map Prod.fst) = some c := by
  obtain ⟨p, hp, hpk⟩ := List.mem_map.mp hk
  apply aggregate_mean_of_ne_nil
  have hmem : p ∈ pairs.filter (fun p => periodKey p.2 = k) :=
    List.mem_filter.mpr ⟨hp, by simp [hpk]⟩
  exact List.ne_nil_of_mem (List.mem_map_of_mem Prod.fst hmem)

/-- Claim C6: for non-empty equal-length inputs `composite_monthly`
succeeds; its output labels are strictly ascending in the modelled
lexicographic string order; a label appears exactly when some input pair
carries it as the `"YYYY-MM"` key of its own timestamp; each emitted
composite is the aggregation of exactly the input rasters whose own
timestamp has that label, in input order; and any permutation of the
zipped input produces the same label sequence. -/
theorem composite_monthly_spec (images : List (List Val)) (timestamps : List Date)
    (hlen : images.length = timestamps.length) (hne : images ≠ []) :
    ∃ l, composite_monthly images timestamps = Except.ok l ∧
      List.Pairwise (fun a b => sLe a b ∧ a ≠ b) (l.map Prod.fst) ∧
      (∀ k : String, k ∈ l.map Prod.fst ↔
        k ∈ (images.zip timestamps).map (fun p => periodKey p.2)) ∧
      (∀ k c, (k, c) ∈ l →
        aggregate_mean
          (((images.zip timestamps).filter (fun p => periodKey p.2 = k)).map Prod.fst) =
          some c) ∧
      (∀ (images2 : List (List Val)) (timestamps2 : List Date)
          (l2 : List (String × List Val)),
        (images.zip timestamps).Perm (images2.zip timestamps2) →
        composite_monthly images2 timestamps2 = Except.ok l2 →
        l2.map Prod.fst = l.map Prod.fst) := by
  have hok : composite_monthly images timestamps =
      Except.ok (((((images.zip timestamps).map (fun p => periodKey p.2)).dedup).insertionSort
          sLe).filterMap (fun k =>
        (aggregate_mean (((images.zip timestamps).filter
          (fun p => periodKey p.2 = k)).map Prod.fst)).map (fun c => (k, c)))) := by
    unfold composite_monthly
    rw [if_neg (by simp [hlen]), if_neg (by simpa [List.isEmpty_iff] using hne)]
  refine ⟨_, hok, ?_, ?_, ?_, ?_⟩
  all_goals
    have hmemsort : ∀ k : String,
        k ∈ (((images.zip timestamps).map (fun p => periodKey p.2)).dedup).insertionSort sLe ↔
        k ∈ (images.zip timestamps).map (fun p => periodKey p.2) := fun k => by
      rw [(List.perm_insertionSort sLe _).mem_iff, List.mem_dedup]
    have hlabels : ((((((images.zip timestamps).map (fun p => periodKey p.2)).dedup).insertionSort
        sLe).filterMap (fun k =>
          (aggregate_mean (((images.zip timestamps).filter
            (fun p => periodKey p.2 = k)).map Prod.fst)).map (fun c => (k, c))))).map Prod.fst =
        (((images.zip timestamps).map (fun p => periodKey p.2)).dedup).insertionSort sLe :=
      filterMap_keyed _ _ (fun k hk =>
        composite_groups_some (images.zip timestamps) k ((hmemsort k).mp hk))
  · rw [hlabels]
    exact (List.sorted_insertionSort sLe _).and
      (List.Pairwise.imp (fun hne2 => hne2)
        (((List.perm_insertionSort sLe _).nodup_iff).mpr (List.nodup_dedup _)))
  · intro k
    rw [hlabels]
    exact hmemsort k
  · intro k c hkc
    obtain ⟨x, hx, hfx⟩ := List.mem_filterMap.mp hkc
    obtain ⟨c0, hc0, heq⟩ := Option.map_eq_some'.mp hfx
    cases heq
    exact hc0
  · intro images2 timestamps2 l2 hperm hok2
    unfold composite_monthly at hok2
    by_cases hlen2 : images2.length ≠ timestamps2.length
    · rw [if_pos hlen2] at hok2
      exact absurd hok2 (by simp)
    · rw [if_neg hlen2] at hok2
      by_cases hne2 : images2.isEmpty = true
      · rw [if_pos hne2] at hok2
        exact absurd hok2 (by simp)
      · rw [if_neg hne2] at hok2
        have hl2 : ((((images2.zip timestamps2).map (fun p => periodKey p.2)).dedup).insertionSort
            sLe).filterMap (fun k =>
              (aggregate_mean (((images2.zip timestamps2).filter
                (fun p => periodKey p.2 = k)).map Prod.fst)).map (fun c => (k, c))) = l2 := by
          injection hok2
        rw [← hl2, hlabels]
        have hmemsort2 : ∀ k : String,
            k ∈ (((images2.zip timestamps2).map (fun p => periodKey p.2)).dedup).insertionSort
              sLe ↔
            k ∈ (images2.zip timestamps2).map (fun p => periodKey p.2) := fun k => by
          rw [(List.perm_insertionSort sLe _).mem_iff, List.mem_dedup]
        rw [filterMap_keyed _ _ (fun k hk =>
          composite_groups_some (images2.zip timestamps2) k ((hmemsort2 k).mp hk))]
        apply List.eq_of_perm_of_sorted (r := sLe) ?_
          (List.sorted_insertionSort sLe _) (List.sorted_insertionSort sLe _)
        exact (List.perm_insertionSort sLe _).trans
          (((hperm.map (fun p => periodKey p.2)).dedup.symm).trans
            (List.perm_insertionSort sLe _).symm)


/-- Witness for claim C6: two rasters, timestamps in February then January
2024; the composite labels come back in ascending order. -/
theorem composite_monthly_spec_witness :
    ([[Val.num 1], [Val.num 2]] : List (List Val)).length =
      ([⟨2024, 2, 1⟩, ⟨2024, 1, 5⟩] : List Date).length ∧
    ([[Val.num 1], [Val.num 2]] : List (List Val)) ≠ [] ∧
    ∃ l, composite_monthly [[Val.num 1], [Val.num 2]] [⟨2024, 2, 1⟩, ⟨2024, 1, 5⟩] =
        Except.ok l ∧
      List.Pairwise (fun a b => sLe a b ∧ a ≠ b) (l.map Prod.fst) ∧
      (∀ k : String, k ∈ l.map Prod.fst ↔
        k ∈ (([[Val.num 1], [Val.num 2]] : List (List Val)).zip
          ([⟨2024, 2, 1⟩, ⟨2024, 1, 5⟩] : List Date)).map (fun p => periodKey p.2)) ∧
      (∀ k c, (k, c) ∈ l →
        aggregate_mean
          (((([[Val.num 1], [Val.num 2]] : List (List Val)).zip
            ([⟨2024, 2, 1⟩, ⟨2024, 1, 5⟩] : List Date)).filter
              (fun p => periodKey p.2 = k)).map Prod.fst) = some c) ∧
      (∀ (images2 : List (List Val)) (timestamps2 : List Date)
          (l2 : List (String × List Val)),
        (([[Val.num 1], [Val.num 2]] : List (List Val)).zip
          ([⟨2024, 2, 1⟩, ⟨2024, 1, 5⟩] : List Date)).Perm (images2.zip timestamps2) →
        composite_monthly images2 timestamps2 = Except.ok l2 →
        l2.map Prod.fst = l.map Prod.fst) :=
  ⟨rfl, by decide,
    composite_monthly_spec [[Val.num 1], [Val.num 2]] [⟨2024, 2, 1⟩, ⟨2024, 1, 5⟩]
      rfl (by decide)⟩

end TemporalCompositor

/-!
Claim C3 concerns the batch composite job's partial-failure handling.  The
skip-and-continue and fail-only-when-all-fail parts hold, but the source
pairs the surviving images with the TRUNCATED timestamp list
`timestamps[:len(clipped_images)]` instead of each survivor's own
timestamp, breaking the one-to-one correspondence `composite_monthly`
documents whenever a non-final image fails.
-/

namespace BatchProcessor

/-- Claim C3 failing input: of two images (January and February 2024), the
first fails and is skipped.  The surviving second image is composited under
period "2024-01" — the failed image's period — although its own timestamp
belongs to period "2024-02". -/
theorem composite_survivor_gets_wrong_period :
    process_temporal_composite [none, some [Val.num 1]]
        [⟨2024, 1, 15⟩, ⟨2024, 2, 15⟩] =
      Except.ok [("2024-01", [Val.num 1])] ∧
    TemporalCompositor.periodKey ⟨2024, 2, 15⟩ = "2024-02" ∧
    "2024-01" ≠ "2024-02" :=
  ⟨rfl, rfl, by decide⟩

end BatchProcessor

namespace RasterProcessor

/-- Claim C9: whenever the AOI, reprojected into the raster's reference
system if needed, has an empty intersection with the raster's footprint,
`clip_to_aoi` fails with the no-overlap error rather than returning any
raster. -/
theorem clip_to_aoi_no_overlap (data : RasterGrid) (aoi : List BBox)
    (tr : AffineMap2D) (all_touched : Bool)
    (h : geomIntersection (reprojectAoi data.crs tr aoi) data.bounds = []) :
    clip_to_aoi data aoi tr all_touched =
      Except.error "Failed to clip raster to AOI: AOI does not overlap with raster data" := by
  unfold clip_to_aoi
  simp [h]

/-- Witness for claim C9: a 10 x 10 EPSG:4326 raster with footprint
[0,10] x [0,10] and an AOI box [20,30] x [20,30] sharing no area. -/
theorem clip_to_aoi_no_overlap_witness :
    geomIntersection
      (reprojectAoi (RasterGrid.crs ⟨4326, 0, 10, 1, 1, 10, 10, []⟩) ⟨1, 0, 1, 0⟩
        [⟨20, 20, 30, 30⟩])
      (RasterGrid.bounds ⟨4326, 0, 10, 1, 1, 10, 10, []⟩) = [] ∧
    clip_to_aoi ⟨4326, 0, 10, 1, 1, 10, 10, []⟩ [⟨20, 20, 30, 30⟩] ⟨1, 0, 1, 0⟩ true =
      Except.error "Failed to clip raster to AOI: AOI does not overlap with raster data" :=
  ⟨by norm_num [geomIntersection, reprojectAoi, RasterGrid.bounds, boxIntersection],
    clip_to_aoi_no_overlap ⟨4326, 0, 10, 1, 1, 10, 10, []⟩ [⟨20, 20, 30, 30⟩] ⟨1, 0, 1, 0⟩ true
      (by norm_num [geomIntersection, reprojectAoi, RasterGrid.bounds, boxIntersection])⟩

end RasterProcessor

end AgriRS
